import Mathlib

/-!
Verification development for the `vscode-go-test-suite` extension.

The definitions below are a shallow embedding of the repository's source:

* `src/goParser.ts` (`GoParser.parse`, `parsePackageName`, `parseImports`,
  `parseTestFunctions` and the regular expressions at the top of the file);
* `src/testProvider.ts` (`TestProvider._discoverTestsInFile`,
  `TestProvider._startTestRun`, the outcome-classification tails of
  `TestProvider._run` and `TestProvider._debug`, and the two library
  adapters).

JavaScript regular-expression matching is embedded via a small backtracking
engine (`reMatch`) whose alternative ordering reproduces the JS preference
order: lazy quantifiers try the continuation first, greedy quantifiers try to
consume first.  All quantified sub-patterns occurring in the source's regex
literals are single-character classes, so the engine only needs quantifiers
over character atoms.
-/

namespace GoTestSuite

/-- Character atoms appearing in the source's regex literals: a literal
character, `.` (any char except a JS line terminator), and the class `\s`. -/
inductive RAtom where
  | lit (c : Char)
  | dot
  | wsp
deriving DecidableEq, Repr

/-- JS `\s` character class (WhiteSpace plus LineTerminator). -/
def isJsWhitespace (c : Char) : Bool :=
  c == '\t' || c == '\n' || c.val == 0x0B || c.val == 0x0C || c == '\r' || c == ' ' ||
    c.val == 0xA0 || c.val == 0x1680 || (0x2000 ≤ c.val && c.val ≤ 0x200A) ||
    c.val == 0x2028 || c.val == 0x2029 || c.val == 0x202F || c.val == 0x205F ||
    c.val == 0x3000 || c.val == 0xFEFF

/-- JS line terminators (the characters `.` does not match, and the
boundaries recognised by the `m` flag's `^`/`$`). -/
def isJsLineTerminator (c : Char) : Bool :=
  c == '\n' || c == '\r' || c.val == 0x2028 || c.val == 0x2029

def atomMatches : RAtom → Char → Bool
  | .lit c, d => c == d
  | .dot, d => !isJsLineTerminator d
  | .wsp, d => isJsWhitespace d

/-- Regex AST covering exactly the constructs used by the source's six regex
literals.  Quantifiers range over single-character atoms only. -/
inductive RE where
  | eps
  | atom (a : RAtom)
  | seq (r s : RE)
  /-- lazy star `a*?` -/
  | starL (a : RAtom)
  /-- greedy star `a*` -/
  | starG (a : RAtom)
  /-- greedy optional single atom, e.g. `\r?`, `\*?` -/
  | optA (a : RAtom)
  /-- greedy optional group `(?:r)?` -/
  | optG (r : RE)
  /-- capturing group `(r)` with 1-based index -/
  | grp (idx : Nat) (r : RE)
  /-- the `$` anchor (no `m` flag: end of input only) -/
  | eos
deriving Repr

/-- Capture table: group index to captured characters (`none` = group did not
participate in the match, as with JS `undefined`). -/
def Caps := Nat → Option (List Char)

def Caps.empty : Caps := fun _ => none

def Caps.set (caps : Caps) (idx : Nat) (v : List Char) : Caps :=
  fun j => if j = idx then some v else caps j

/-- Result handed to the continuation: remaining input and captures. -/
def MRes := List Char × Caps

/-- Backtracking matcher in continuation-passing style.  The order of the
`<|>` alternatives reproduces the JS engine's preferences: `starL` tries the
continuation before consuming, `starG`/`optA`/`optG` try consuming first.
The `fuel` argument only makes the recursion structural (so that concrete
matches reduce inside the kernel): every recursive call strictly decreases
`RE.size re + input.length`, so fuel of at least `RE.size re + input.length
+ 1` (supplied by `runRE`) is never exhausted. -/
def reMatch (fuel : Nat) (re : RE) (input : List Char) (caps : Caps)
    (k : List Char → Caps → Option MRes) : Option MRes :=
  match fuel with
  | 0 => none
  | fuel + 1 =>
    match re with
    | .eps => k input caps
    | .atom a =>
      match input with
      | [] => none
      | c :: rest => if atomMatches a c then k rest caps else none
    | .seq r s => reMatch fuel r input caps fun rest caps' => reMatch fuel s rest caps' k
    | .starL a =>
      k input caps <|>
        (match input with
         | [] => none
         | c :: rest => if atomMatches a c then reMatch fuel (.starL a) rest caps k else none)
    | .starG a =>
      (match input with
       | [] => none
       | c :: rest => if atomMatches a c then reMatch fuel (.starG a) rest caps k else none) <|>
        k input caps
    | .optA a =>
      (match input with
       | [] => none
       | c :: rest => if atomMatches a c then k rest caps else none) <|>
        k input caps
    | .optG r => reMatch fuel r input caps k <|> k input caps
    | .grp idx r =>
      reMatch fuel r input caps fun rest caps' =>
        k rest (caps'.set idx (input.take (input.length - rest.length)))
    | .eos => if input.isEmpty then k input caps else none

/-- Structural size of a regex, used to bound the matcher's call depth. -/
def RE.size : RE → Nat
  | .eps => 1
  | .atom _ => 1
  | .seq r s => 1 + r.size + s.size
  | .starL _ => 1
  | .starG _ => 1
  | .optA _ => 1
  | .optG r => 1 + r.size
  | .grp _ r => 1 + r.size
  | .eos => 1

/-- Sequence a list of regexes. -/
def reSeq (l : List RE) : RE := l.foldr .seq .eps

/-- Literal string as a regex. -/
def lits (s : String) : RE := reSeq (s.toList.map fun c => .atom (.lit c))

/-- Run a regex anchored at the start of `line` (all the source's regexes
begin with `^`, so `RegExp.exec` can only match at index 0).  Returns the
length of `match[0]` and the capture table. -/
def runRE (re : RE) (line : String) : Option (Nat × Caps) :=
  match reMatch (re.size + line.toList.length + 1) re line.toList Caps.empty
      (fun rest caps => some (rest, caps)) with
  | some (rest, caps) => some (line.toList.length - rest.length, caps)
  | none => none

/-- Read a capture group as a `String` (`none` if the group did not
participate). -/
def capStr (caps : Caps) (idx : Nat) : Option String :=
  (caps idx).map fun cs => String.mk cs

/-- `_PACKAGE_STATEMENT_REGEXP = /^package (.+)\r?$/` -/
def _PACKAGE_STATEMENT_REGEXP : RE :=
  reSeq [lits "package ", .grp 1 (.seq (.atom .dot) (.starG .dot)), .optA (.lit '\r'), .eos]

/-- `_IMPORT_SINGLE_LINE_REGEXP = /^import (?:(.*?) )?"(.*?)"\r?$/` -/
def _IMPORT_SINGLE_LINE_REGEXP : RE :=
  reSeq [lits "import ", .optG (.seq (.grp 1 (.starL .dot)) (.atom (.lit ' '))),
    .atom (.lit '"'), .grp 2 (.starL .dot), .atom (.lit '"'), .optA (.lit '\r'), .eos]

/-- `_IMPORT_MULTI_LINE_START_REGEXP = /^import \(\r?$/` -/
def _IMPORT_MULTI_LINE_START_REGEXP : RE :=
  reSeq [lits "import (", .optA (.lit '\r'), .eos]

/-- `_IMPORT_MULTI_LINE_END_REGEXP = /^\)\r?$/` -/
def _IMPORT_MULTI_LINE_END_REGEXP : RE :=
  reSeq [lits ")", .optA (.lit '\r'), .eos]

/-- `_IMPORT_MULTI_LINE_ENTRY_REGEXP = /^\s*(?:(.*?) )?"(.*?)"\r?$/` -/
def _IMPORT_MULTI_LINE_ENTRY_REGEXP : RE :=
  reSeq [.starG .wsp, .optG (.seq (.grp 1 (.starL .dot)) (.atom (.lit ' '))),
    .atom (.lit '"'), .grp 2 (.starL .dot), .atom (.lit '"'), .optA (.lit '\r'), .eos]

/-- `_SUITE_TEST_FUNCTION_REGEXP =
`/^func \(.*? \*?(.*?)\) (Test.*?)\(.*? \*?(?:(.*?)\.)?(.*?)\) \{/` -/
def _SUITE_TEST_FUNCTION_REGEXP : RE :=
  reSeq [lits "func (", .starL .dot, .atom (.lit ' '), .optA (.lit '*'),
    .grp 1 (.starL .dot), lits ") ",
    .grp 2 (.seq (lits "Test") (.starL .dot)),
    .atom (.lit '('), .starL .dot, .atom (.lit ' '), .optA (.lit '*'),
    .optG (.seq (.grp 3 (.starL .dot)) (.atom (.lit '.'))),
    .grp 4 (.starL .dot), lits ") \x7b"]

/-- Match of `_PACKAGE_STATEMENT_REGEXP`, returning `match[1]`. -/
def execPackage (line : String) : Option String :=
  match runRE _PACKAGE_STATEMENT_REGEXP line with
  | some (_, caps) => capStr caps 1
  | none => none

/-- Match of `_IMPORT_SINGLE_LINE_REGEXP`, returning the alias as recorded by
the source (`if (match[1]) entry.alias = match[1]`, so an absent or empty
`match[1]` yields no alias) and `match[2]`. -/
def execSingleImport (line : String) : Option (Option String × String) :=
  match runRE _IMPORT_SINGLE_LINE_REGEXP line with
  | none => none
  | some (_, caps) =>
    match capStr caps 2 with
    | none => none
    | some moduleName =>
      some (match capStr caps 1 with
            | some al => if al = "" then none else some al
            | none => none, moduleName)

/-- Match of `_IMPORT_MULTI_LINE_ENTRY_REGEXP`, with the same alias
truthiness treatment as `execSingleImport`. -/
def execMultiEntry (line : String) : Option (Option String × String) :=
  match runRE _IMPORT_MULTI_LINE_ENTRY_REGEXP line with
  | none => none
  | some (_, caps) =>
    match capStr caps 2 with
    | none => none
    | some moduleName =>
      some (match capStr caps 1 with
            | some al => if al = "" then none else some al
            | none => none, moduleName)

def isMultiStart (line : String) : Bool := (runRE _IMPORT_MULTI_LINE_START_REGEXP line).isSome

def isMultiEnd (line : String) : Bool := (runRE _IMPORT_MULTI_LINE_END_REGEXP line).isSome

/-- Captures of a `_SUITE_TEST_FUNCTION_REGEXP` match: `match[1]`–`match[4]`
plus the length of `match[0]` (the match always starts at index 0 because of
the `^` anchor). -/
structure SuiteMatch where
  receiverType : String
  functionName : String
  argMod : Option String
  argTypeName : String
  matchLen : Nat
deriving DecidableEq, Repr

/-- Match of `_SUITE_TEST_FUNCTION_REGEXP` against a line.  Groups 1, 2 and 4
always participate when the regex matches. -/
def execSuite (line : String) : Option SuiteMatch :=
  match runRE _SUITE_TEST_FUNCTION_REGEXP line with
  | none => none
  | some (len, caps) =>
    match capStr caps 1, capStr caps 2, capStr caps 4 with
    | some recv, some fname, some argTy => some ⟨recv, fname, capStr caps 3, argTy, len⟩
    | _, _, _ => none

/-! Data model of `goParser.ts`. -/

/-- `PackageInfo` of `goParser.ts`. -/
structure PackageInfo where
  name : String
  lineNumber : Nat
deriving DecidableEq, Repr

/-- `Import` of `goParser.ts` (`alias?: string` becomes `Option String`). -/
structure Import where
  moduleName : String
  importAlias : Option String := none
  lineNumber : Nat
deriving DecidableEq, Repr

/-- `SupportedTestFunctionKinds` of `goParser.ts`. -/
inductive SupportedTestFunctionKinds where
  | gocheck
  | quicktest
deriving DecidableEq, Repr

/-- The `argType` component of `TestFunction` in `goParser.ts`. -/
structure ArgType where
  moduleName : String
  typeName : String
deriving DecidableEq, Repr

/-- `TestFunction` of `goParser.ts`.  `range` is
`[startLine, startChar, endLine, endChar]`. -/
structure TestFunction where
  kind : Option SupportedTestFunctionKinds
  receiverType : Option String
  functionName : String
  argType : Option ArgType
  range : Nat × Nat × Nat × Nat
  lineNumber : Nat
deriving DecidableEq, Repr

/-- `Parsed` of `goParser.ts`. -/
structure Parsed where
  packageInfo : PackageInfo
  imports : List Import
  testFunctions : List TestFunction
deriving DecidableEq, Repr

def _GOCHECK_MODULE_NAME : String := "gopkg.in/check.v1"

def _GOCHECK_PACKAGE_NAME : String := "check"

def _QUICKTEST_MODULE_NAME : String := "github.com/frankban/quicktest"

def _QUICKTEST_PACKAGE_NAME : String := "quicktest"

/-! Embedding of `GoParser`'s methods.  The TS methods take `lines` (the
content split on `'\n'`); the embedding takes `ls : List String` directly and
a separate `getLines` mirrors `GoParser._getLines`. -/

/-- JS `String.prototype.split` with a single-character separator: every
occurrence separates, empty segments are kept (`"".split(c)` is `[""]`).
Implemented over the character list so that it reduces in the kernel. -/
def splitOnChar (sep : Char) (s : String) : List String :=
  (s.toList.foldr
    (fun c acc =>
      if c = sep then [] :: acc
      else
        match acc with
        | seg :: rest => (c :: seg) :: rest
        | [] => [[c]])
    [[]]).map fun cs => String.mk cs

/-- `s.startsWith t`, via character lists so that it reduces in the kernel. -/
def strStartsWith (s t : String) : Bool := t.toList.isPrefixOf s.toList

/-- `s.endsWith t`, via character lists so that it reduces in the kernel. -/
def strEndsWith (s t : String) : Bool := t.toList.isSuffixOf s.toList

/-- `GoParser._getLines`: `this.content.split('\n')`. -/
def getLines (content : String) : List String := splitOnChar '\n' content

/-- Loop body of `GoParser.parsePackageName`: scan from line `n` for the
first line matching the package-statement regex.  The `fuel` argument only
makes the recursion structural; each step advances the cursor, so the
wrapper's `ls.length + 1` is never exhausted. -/
def parsePackageNameAux (ls : List String) : Nat → Nat → Option PackageInfo
  | 0, _ => none
  | fuel + 1, n =>
    if h : n < ls.length then
      match execPackage ls[n] with
      | some name => some ⟨name, n⟩
      | none => parsePackageNameAux ls fuel (n + 1)
    else none

/-- `GoParser.parsePackageName(lines)`. -/
def parsePackageName (ls : List String) : Option PackageInfo :=
  parsePackageNameAux ls (ls.length + 1) 0

/-- The scan inside `acceptMultiLineImport` of `GoParser.parseImports`: from
offset `n` past the `import (` line at `idx`, look for the closing-delimiter
line, collecting entry matches.  Returns the offset of the closing line and
the collected entries, or `none` when the block is unterminated.  `fuel`
as in `parsePackageNameAux`. -/
def scanBlock (ls : List String) (idx : Nat) : Nat → Nat → List Import →
    Option (Nat × List Import)
  | 0, _, _ => none
  | fuel + 1, n, acc =>
    if h : idx + n < ls.length then
      let line := ls[idx + n]
      if isMultiEnd line then some (n, acc)
      else
        match execMultiEntry line with
        | some (al, moduleName) =>
          scanBlock ls idx fuel (n + 1) (acc ++ [⟨moduleName, al, idx + n⟩])
        | none => scanBlock ls idx fuel (n + 1) acc
    else none

/-- The cursor loop of `GoParser.parseImports`: at each line try the
single-line form, then the multi-line block form, otherwise advance one
line.  An unterminated block contributes nothing and the cursor advances one
line past `import (`.  `fuel` as in `parsePackageNameAux`. -/
def parseImportsAux (ls : List String) : Nat → Nat → List Import
  | 0, _ => []
  | fuel + 1, idx =>
    if h : idx < ls.length then
      let line := ls[idx]
      match execSingleImport line with
      | some (al, moduleName) => ⟨moduleName, al, idx⟩ :: parseImportsAux ls fuel (idx + 1)
      | none =>
        if isMultiStart line then
          match scanBlock ls idx (ls.length + 1) 1 [] with
          | some (n, entries) => entries ++ parseImportsAux ls fuel (idx + 1 + n)
          | none => parseImportsAux ls fuel (idx + 1)
        else parseImportsAux ls fuel (idx + 1)
    else []

/-- `GoParser.parseImports(lines, start)`. -/
def parseImports (ls : List String) (start : Nat := 0) : List Import :=
  parseImportsAux ls (ls.length + 1) start

/-- The `kind` computation at the push site of `GoParser.parseTestFunctions`:
`argType.moduleName === _GOCHECK_MODULE_NAME ? 'gocheck' : ... ? 'quicktest'
: undefined`. -/
def kindOfModuleName (m : String) : Option SupportedTestFunctionKinds :=
  if m = _GOCHECK_MODULE_NAME then some .gocheck
  else if m = _QUICKTEST_MODULE_NAME then some .quicktest
  else none

/-- Payload of an accepted declaration in `GoParser.parseTestFunctions`,
before the line-dependent fields are filled in. -/
structure AcceptData where
  kind : Option SupportedTestFunctionKinds
  receiverType : String
  functionName : String
  argType : ArgType
  matchLen : Nat
deriving DecidableEq, Repr

/-- Per-line outcome of the loop body of `GoParser.parseTestFunctions`:
no regex match, a `continue` (skip), the ambiguous-alias `return []`
(abort), or an accepted declaration. -/
inductive ResolveOutcome where
  | noMatch
  | skip
  | abort
  | accept (d : AcceptData)
deriving DecidableEq, Repr

/-- Loop body of `GoParser.parseTestFunctions` for one line: match the suite
regex; skip when `match[3]` is falsy; abort the whole parse when more than
one import shares the alias; otherwise resolve the alias, falling back to
the two well-known package short names (accepted when the corresponding
module identifier occurs in the import table), else skip. -/
def resolveLine (imports : List Import) (line : String) : ResolveOutcome :=
  match execSuite line with
  | none => .noMatch
  | some m =>
    match m.argMod with
    | none => .skip
    | some argTypeModule =>
      if argTypeModule = "" then .skip
      else
        let importsWithSameAlias := imports.filter fun x => x.importAlias == some argTypeModule
        if 1 < importsWithSameAlias.length then .abort
        else
          let argTy : Option ArgType :=
            match importsWithSameAlias with
            | imp :: _ => some ⟨imp.moduleName, m.argTypeName⟩
            | [] =>
              if argTypeModule = _GOCHECK_PACKAGE_NAME then
                if imports.any (fun x => x.moduleName == _GOCHECK_MODULE_NAME) then
                  some ⟨_GOCHECK_MODULE_NAME, m.argTypeName⟩
                else none
              else if argTypeModule = _QUICKTEST_PACKAGE_NAME then
                if imports.any (fun x => x.moduleName == _QUICKTEST_MODULE_NAME) then
                  some ⟨_QUICKTEST_MODULE_NAME, m.argTypeName⟩
                else none
              else none
          match argTy with
          | none => .skip
          | some argTy =>
            .accept ⟨kindOfModuleName argTy.moduleName, m.receiverType, m.functionName,
              argTy, m.matchLen⟩

/-- The `TestFunction` pushed for an accepted declaration at line `n`
(`match.index` is always 0 because of the `^` anchor). -/
def mkTestFunction (d : AcceptData) (n : Nat) : TestFunction :=
  { kind := d.kind, receiverType := some d.receiverType, functionName := d.functionName,
    argType := some d.argType, range := (n, 0, n, d.matchLen), lineNumber := n }

/-- The scan loop of `GoParser.parseTestFunctions` with the accumulated
`result` array; the `abort` outcome models `return []`, which discards the
accumulator.  `fuel` as in `parsePackageNameAux`. -/
def parseTestFunctionsAux (imports : List Import) (ls : List String) :
    Nat → Nat → List TestFunction → List TestFunction
  | 0, _, acc => acc
  | fuel + 1, n, acc =>
    if h : n < ls.length then
      match resolveLine imports ls[n] with
      | .noMatch => parseTestFunctionsAux imports ls fuel (n + 1) acc
      | .skip => parseTestFunctionsAux imports ls fuel (n + 1) acc
      | .abort => []
      | .accept d => parseTestFunctionsAux imports ls fuel (n + 1) (acc ++ [mkTestFunction d n])
    else acc

/-- `GoParser.parseTestFunctions(imports, lines, start)`. -/
def parseTestFunctions (imports : List Import) (ls : List String) (start : Nat := 0) :
    List TestFunction :=
  parseTestFunctionsAux imports ls (ls.length + 1) start []

/-- `GoParser.parse(lines)`: `undefined` when no package statement exists,
otherwise imports and test functions parsed from `1 + packageInfo.lineNumber`. -/
def parse (ls : List String) : Option Parsed :=
  match parsePackageName ls with
  | none => none
  | some packageInfo =>
    let imports := parseImports ls (1 + packageInfo.lineNumber)
    let testFunctions := parseTestFunctions imports ls (1 + packageInfo.lineNumber)
    some ⟨packageInfo, imports, testFunctions⟩

/-- `GoParser.parse()` on raw content. -/
def parseContent (content : String) : Option Parsed := parse (getLines content)

/-! Embedding of `testProvider.ts`. -/

/-- `discoverTestFunctions` of `GocheckTestLibraryAdapter` /
`QtsuiteTestLibraryAdapter`, parameterised by the adapter's kind:
`new GoParser(content).parse()?.testFunctions.filter(x => x.kind === k) || []`. -/
def discoverTestFunctions (k : SupportedTestFunctionKinds) (content : String) :
    List TestFunction :=
  match parseContent content with
  | none => []
  | some p => p.testFunctions.filter fun x => x.kind == some k

/-- The relevant parts of a `vscode.Uri`. -/
structure GoUri where
  scheme : String
  path : String
deriving DecidableEq, Repr

/-- Node's POSIX `path.basename` (no extension argument): trailing
separators are stripped, then everything up to the last separator. -/
def pathBasename (p : String) : String :=
  let r := p.toList.reverse.dropWhile (· == '/')
  String.mk (r.takeWhile (· != '/')).reverse

/-- Node's POSIX `path.dirname`. -/
def pathDirname (p : String) : String :=
  let r := p.toList.reverse.dropWhile (· == '/')
  let r := r.dropWhile (· != '/')
  let r := r.dropWhile (· == '/')
  if r.isEmpty then (if strStartsWith p "/" then "/" else ".") else String.mk r.reverse

/-- A Function test item of the catalog: id `receiverType.functionName`,
label `functionName`, plus the declaration it carries. -/
structure FunctionNode where
  id : String
  label : String
  fn : TestFunction
deriving DecidableEq, Repr

/-- A Suite test item: id and label are the receiver type name. -/
structure SuiteNode where
  id : String
  functions : List FunctionNode
deriving DecidableEq, Repr

/-- A File test item: id is the filename without extension, label the
filename. -/
structure FileNode where
  id : String
  label : String
  suites : List SuiteNode
deriving DecidableEq, Repr

/-- A Package test item: id is `directoryPath + ":" + packageName`. -/
structure PackageNode where
  id : String
  label : String
  files : List FileNode
deriving DecidableEq, Repr

/-- The tree under `controller.items`. -/
abbrev Catalog := List PackageNode

/-- `TestItemCollection.add`: adds the item, replacing any existing item
with the same id. -/
def addOrReplaceFunction (l : List FunctionNode) (x : FunctionNode) : List FunctionNode :=
  if l.any (fun y => y.id == x.id) then l.map (fun y => if y.id == x.id then x else y)
  else l ++ [x]

/-- The suite/function insertion step of `TestProvider._discoverTestsInFile`
for one discovered declaration: a declaration without a receiver type is
skipped; otherwise the Suite item is created when missing and the Function
item is added (replacing an existing one with the same id). -/
def insertDiscovered (file : FileNode) (t : TestFunction) : FileNode :=
  match t.receiverType with
  | none => file
  | some recv =>
    let suites := if file.suites.any (fun s => s.id == recv) then file.suites
      else file.suites ++ [⟨recv, []⟩]
    let fnode : FunctionNode := ⟨recv ++ "." ++ t.functionName, t.functionName, t⟩
    { file with
      suites := suites.map fun s =>
        if s.id == recv then { s with functions := addOrReplaceFunction s.functions fnode }
        else s }

/-- `TestProvider._discoverTestsInFile(uri, content)` with the content
supplied (the `content ??= readFile` case differs only in where the text
comes from).  `asRelativePath` stands for the external
`vscode.workspace.asRelativePath`; `path.sep` is the POSIX `'/'`.  Returns
the updated catalog. -/
def _discoverTestsInFile (k : SupportedTestFunctionKinds) (asRelativePath : String → String)
    (uri : GoUri) (content : String) (catalog : Catalog) : Catalog :=
  if uri.scheme != "file" || !strEndsWith uri.path "_test.go" then catalog
  else if (splitOnChar '/' uri.path).contains "testdata" then catalog
  else
    let filename := pathBasename uri.path
    if strStartsWith filename "." || strStartsWith filename "_" then catalog
    else
      match parsePackageName (getLines content) with
      | none => catalog
      | some packageInfo =>
        -- the source tests `!packageName`, which is also true for an empty
        -- name; the package regex never produces one, but keep the check
        if packageInfo.name = "" then catalog
        else
          let discovered := discoverTestFunctions k content
          if discovered.isEmpty then catalog
          else
            let directory := pathDirname uri.path
            let packageId := directory ++ ":" ++ packageInfo.name
            let catalog :=
              if catalog.any (fun p => p.id == packageId) then catalog
              else
                let rel := asRelativePath (directory ++ "/.")
                catalog ++
                  [⟨packageId, rel ++ (if rel = "" then "" else "/") ++ packageInfo.name, []⟩]
            let fileId := String.intercalate "." (splitOnChar '.' filename).dropLast
            catalog.map fun p =>
              if p.id == packageId then
                let files := if p.files.any (fun f => f.id == fileId) then p.files
                  else p.files ++ [⟨fileId, filename, []⟩]
                { p with
                  files := files.map fun f =>
                    if f.id == fileId then discovered.foldl insertDiscovered f else f }
              else p

/-! Queue building and rejection guards of `TestProvider._startTestRun`. -/

/-- `TestData` attached to a test item via the provider's weak map
(`'package' | 'file' | TestSuiteData | TestFunctionData`). -/
inductive TData where
  | package
  | file
  | suite (name : String)
  | function (fn : TestFunction)
deriving DecidableEq, Repr

/-- A test item together with its mapped data (`none` models an item absent
from the weak map) and its children. -/
inductive TItem where
  | node (id : String) (data : Option TData) (children : List TItem)
deriving Repr

/-- The `discoverTests` recursion of `TestProvider._startTestRun`: excluded
items are dropped, unmapped items are dropped, `file`/`package` items are
expanded into their children, and everything else is enqueued. -/
def gatherQueue (exclude : List String) : List TItem → List (String × TData)
  | [] => []
  | .node id data children :: rest =>
    (if exclude.contains id then []
     else
       match data with
       | none => []
       | some .package => gatherQueue exclude children
       | some .file => gatherQueue exclude children
       | some d => [(id, d)]) ++ gatherQueue exclude rest

/-- Observable result of `TestProvider._startTestRun`: the error reported to
the user (if any), the queue entries that get executed, and whether
`run.end()` was called. -/
structure RunReport where
  errorMessage : Option String
  executedQueue : List (String × TData)
  ended : Bool
deriving DecidableEq, Repr

/-- `TestProvider._startTestRun` after queue building: an empty queue is
rejected up front, debug mode rejects a multi-entry queue, otherwise the
queue is executed in order. -/
def _startTestRun (isDebug : Bool) (includeItems : List TItem) (exclude : List String) :
    RunReport :=
  let queue := gatherQueue exclude includeItems
  if queue.length = 0 then ⟨some "No tests to run", [], true⟩
  else if isDebug && 1 < queue.length then
    ⟨some "The extension does not support debugging multiple tests", [], true⟩
  else ⟨none, queue, true⟩

/-! Outcome classification of `TestProvider._run` and `TestProvider._debug`. -/

/-- Terminal states reported on a `vscode.TestRun`. -/
inductive TestOutcome where
  | passed
  | failed (message : String)
  | skipped
  | errored (message : String)
deriving DecidableEq, Repr

/-- The `ProcessResult` of `TestProvider._run` (`code` is `null` when the
process was terminated by a signal). -/
structure ProcessResult where
  code : Option Int
  stdout : String
  stderr : String
deriving DecidableEq, Repr

/-- Result of racing the test process against cancellation in
`TestProvider._run`. -/
inductive RaceResult where
  | cancelled
  | completed (r : ProcessResult)
deriving DecidableEq, Repr

/-- The state assignments performed by the tail of `TestProvider._run`
(lines 544-575): on cancellation the entry is marked skipped then errored;
on completion exit code 0 marks the entry and all its children passed, and
anything else marks the entry failed with `stdout\r\nstderr` as the message
and every child skipped. -/
def runOutcome (res : RaceResult) (testId : String) (children : List String) :
    List (String × TestOutcome) :=
  match res with
  | .cancelled => [(testId, .skipped), (testId, .errored "Cancelled")]
  | .completed r =>
    if r.code = some 0 then
      (testId, .passed) :: children.map fun c => (c, .passed)
    else
      (testId, .failed (r.stdout ++ "\r\n" ++ r.stderr)) ::
        children.map fun c => (c, .skipped)

/-- The state recorded by `GoTestDebugAdapterTracker` when the debug session
terminates: categorized output lines, the adapter exit code (`onExit`), and
whether `onError` fired. -/
structure GoTestDebugAdapterTracker where
  stdout : List String
  stderr : List String
  others : List String
  exitCode : Option Int
  error : Option String
deriving DecidableEq, Repr

/-- Splits a string at every JS line terminator, so that a segment equals
`"PASS"` exactly when `/^PASS$/m` matches (the `m`-flag `^`/`$` match at the
ends of the string and around every line-terminator character, and `"PASS"`
itself contains no terminator). -/
def splitJsLines (s : String) : List String :=
  (s.toList.foldr
    (fun c acc =>
      if isJsLineTerminator c then [] :: acc
      else match acc with
        | seg :: rest => (c :: seg) :: rest
        | [] => [[c]])
    [[]]).map fun cs => String.mk cs

/-- `/^PASS$/m.exec(stdout)` (and its `FAIL` counterpart) as a Boolean. -/
def hasMarkerLine (marker : String) (s : String) : Bool :=
  (splitJsLines s).contains marker

/-- The state assignments performed by the `onDidTerminateDebugSession`
listener of `TestProvider._debug` (lines 636-687) for the session matched by
token: no tracker means skipped; otherwise an adapter error means failed, an
explicit exit code decides passed/failed, and failing those a `/^PASS$/m` or
`/^FAIL$/m` scan of the captured stdout decides, defaulting to skipped.
Children are marked passed alongside a pass and skipped alongside a fail. -/
def debugOutcome (tracker : Option GoTestDebugAdapterTracker) (testId : String)
    (children : List String) : List (String × TestOutcome) :=
  match tracker with
  | none => [(testId, .skipped)]
  | some t =>
    let stdout := String.intercalate "\r\n" t.stdout
    let stderr := String.intercalate "\r\n" t.stderr
    let others := String.intercalate "\r\n" t.others
    let trail := String.intercalate "\r\n" [stdout, stderr, others]
    let markAsFailed := (testId, TestOutcome.failed trail) ::
      children.map fun c => (c, TestOutcome.skipped)
    let markAsPassed := (testId, TestOutcome.passed) ::
      children.map fun c => (c, TestOutcome.passed)
    if t.error.isSome then markAsFailed
    else
      match t.exitCode with
      | some code => if code = 0 then markAsPassed else markAsFailed
      | none =>
        if hasMarkerLine "PASS" stdout then markAsPassed
        else if hasMarkerLine "FAIL" stdout then markAsFailed
        else [(testId, .skipped)]

/-- Does the line carry a suite-test-function match whose argument qualifier
is an alias shared by more than one import entry?  This is exactly the
condition under which `GoParser.parseTestFunctions` executes `return []`. -/
def dupAliasUsedAt (imports : List Import) (line : String) : Bool :=
  match execSuite line with
  | none => false
  | some m =>
    match m.argMod with
    | none => false
    | some a => a != "" && decide (1 < (imports.filter fun x => x.importAlias == some a).length)

/-- The per-declaration scan of `GoParser.parseTestFunctions` without the
ambiguous-alias abort: every line is resolved independently and accepted
declarations are collected in order.  When no line aborts, the real parse
agrees with this collection (claim C10).  `fuel` as in
`parsePackageNameAux`. -/
def collectTestFunctionsAux (imports : List Import) (ls : List String) :
    Nat → Nat → List TestFunction
  | 0, _ => []
  | fuel + 1, n =>
    if h : n < ls.length then
      match resolveLine imports ls[n] with
      | .accept d => mkTestFunction d n :: collectTestFunctionsAux imports ls fuel (n + 1)
      | _ => collectTestFunctionsAux imports ls fuel (n + 1)
    else []

/-- The per-declaration scan starting at line `start` (see
`collectTestFunctionsAux`). -/
def collectTestFunctions (imports : List Import) (ls : List String) (start : Nat) :
    List TestFunction :=
  collectTestFunctionsAux imports ls (ls.length + 1) start

/-! Theorems. -/

theorem resolveLine_abort_of_dup (imports : List Import) (line : String) (m : SuiteMatch)
    (a : String) (hm : execSuite line = some m) (ha : m.argMod = some a) (hne : a ≠ "")
    (hdup : 1 < (imports.filter fun x => x.importAlias == some a).length) :
    resolveLine imports line = .abort := by
  simp only [resolveLine, hm, ha, hne, if_false, hdup, if_true]

theorem parseTestFunctionsAux_eq_nil_of_abort (imports : List Import) (ls : List String) :
    ∀ fuel n acc, ls.length - n < fuel →
    (∃ kk, n ≤ kk ∧ ∃ hk : kk < ls.length, resolveLine imports ls[kk] = .abort) →
    parseTestFunctionsAux imports ls fuel n acc = [] := by
  intro fuel
  induction fuel with
  | zero =>
    intro n acc hfuel h
    omega
  | succ fuel ih =>
    intro n acc hfuel h
    obtain ⟨kk, hnk, hk, habort⟩ := h
    have hn : n < ls.length := by omega
    simp only [parseTestFunctionsAux]
    rw [dif_pos hn]
    rcases Nat.eq_or_lt_of_le hnk with heq | hlt
    · subst heq
      simp only [habort]
    · cases hr : resolveLine imports ls[n] with
      | noMatch => exact ih (n + 1) acc (by omega) ⟨kk, by omega, hk, habort⟩
      | skip => exact ih (n + 1) acc (by omega) ⟨kk, by omega, hk, habort⟩
      | abort => rfl
      | accept d => exact ih (n + 1) _ (by omega) ⟨kk, by omega, hk, habort⟩

/-- C1: for every import table and line sequence, if more than one import
entry shares one alias and some scanned suite-style declaration (a line in
the scan range matching the suite regex) uses that alias as its argument's
module qualifier, then `parseTestFunctions` returns the empty sequence for
the whole file, discarding every declaration. -/
theorem parseTestFunctions_dup_alias_aborts (imports : List Import) (ls : List String)
    (start kk : Nat) (m : SuiteMatch) (a : String)
    (hks : start ≤ kk) (hk : kk < ls.length)
    (hm : execSuite (ls.getD kk "") = some m)
    (ha : m.argMod = some a) (hne : a ≠ "")
    (hdup : 1 < (imports.filter fun x => x.importAlias == some a).length) :
    parseTestFunctions imports ls start = [] := by
  rw [List.getD_eq_getElem ls "" hk] at hm
  exact parseTestFunctionsAux_eq_nil_of_abort imports ls (ls.length + 1) start []
    (by omega) ⟨kk, hks, hk, resolveLine_abort_of_dup imports _ m a hm ha hne hdup⟩

/-- C1 witness: two imports alias `x`, and the only line uses `x`. -/
theorem parseTestFunctions_dup_alias_aborts_witness :
    parseTestFunctions [⟨"m1", some "x", 0⟩, ⟨"m2", some "x", 1⟩]
      ["func (s *B) TestB(c *x.C) \x7b"] 0 = [] :=
  parseTestFunctions_dup_alias_aborts [⟨"m1", some "x", 0⟩, ⟨"m2", some "x", 1⟩]
    ["func (s *B) TestB(c *x.C) \x7b"] 0 0 ⟨"B", "TestB", some "x", "C", 27⟩ "x"
    (by decide) (by decide) (by decide) (by decide) (by decide) (by decide)

theorem resolveLine_ne_abort_of_not_dup (imports : List Import) (line : String)
    (h : dupAliasUsedAt imports line = false) : resolveLine imports line ≠ .abort := by
  unfold dupAliasUsedAt at h
  unfold resolveLine
  cases he : execSuite line with
  | none => simp
  | some m =>
    rw [he] at h
    dsimp only at h ⊢
    cases ha : m.argMod with
    | none => simp
    | some a =>
      rw [ha] at h
      dsimp only at h ⊢
      by_cases haa : a = ""
      · simp [haa]
      · have hlen : ¬ 1 < (imports.filter fun x => x.importAlias == some a).length := by
          by_contra hlt
          simp [haa, hlt] at h
        rw [if_neg haa, if_neg hlen]
        split <;> simp

theorem parseTestFunctionsAux_eq_append_collect (imports : List Import) (ls : List String) :
    ∀ fuel n acc, ls.length - n < fuel →
    (∀ kk, (hk : kk < ls.length) → n ≤ kk → resolveLine imports ls[kk] ≠ .abort) →
    parseTestFunctionsAux imports ls fuel n acc =
      acc ++ collectTestFunctionsAux imports ls fuel n := by
  intro fuel
  induction fuel with
  | zero =>
    intro n acc hfuel _
    omega
  | succ fuel ih =>
    intro n acc hfuel hnoab
    by_cases hn : n < ls.length
    · simp only [parseTestFunctionsAux, collectTestFunctionsAux]
      rw [dif_pos hn, dif_pos hn]
      cases hr : resolveLine imports ls[n] with
      | noMatch =>
        exact ih (n + 1) acc (by omega) fun kk hk hnk => hnoab kk hk (by omega)
      | skip =>
        exact ih (n + 1) acc (by omega) fun kk hk hnk => hnoab kk hk (by omega)
      | abort => exact absurd hr (hnoab n hn (Nat.le_refl n))
      | accept d =>
        dsimp only
        rw [ih (n + 1) (acc ++ [mkTestFunction d n]) (by omega)
          fun kk hk hnk => hnoab kk hk (by omega)]
        simp
    · simp only [parseTestFunctionsAux, collectTestFunctionsAux]
      rw [dif_neg hn, dif_neg hn, List.append_nil]

theorem mem_collectTestFunctionsAux (imports : List Import) (ls : List String) :
    ∀ fuel n kk d, ls.length - n < fuel → n ≤ kk → (hk : kk < ls.length) →
    resolveLine imports ls[kk] = .accept d →
    mkTestFunction d kk ∈ collectTestFunctionsAux imports ls fuel n := by
  intro fuel
  induction fuel with
  | zero =>
    intro n kk d hfuel hnk hk _
    omega
  | succ fuel ih =>
    intro n kk d hfuel hnk hk hacc
    have hn : n < ls.length := by omega
    simp only [collectTestFunctionsAux]
    rw [dif_pos hn]
    rcases Nat.eq_or_lt_of_le hnk with heq | hlt
    · subst heq
      simp only [hacc]
      exact List.mem_cons_self _ _
    · cases hr : resolveLine imports ls[n] with
      | accept d₂ => exact List.mem_cons_of_mem _ (ih (n + 1) kk d (by omega) hlt hk hacc)
      | noMatch => exact ih (n + 1) kk d (by omega) hlt hk hacc
      | skip => exact ih (n + 1) kk d (by omega) hlt hk hacc
      | abort => exact ih (n + 1) kk d (by omega) hlt hk hacc

/-- C10: the ambiguous-alias abort fires only for a scanned declaration that
references the duplicated alias.  When no scanned line's qualifier is a
duplicated alias (in particular when duplicate aliases exist but are never
referenced), the parse is not aborted: the result is exactly the
per-declaration collection, and every declaration accepted on some line
(through another alias or through the default-package-name fallback) is
returned. -/
theorem parseTestFunctions_no_dup_alias_keeps_declarations (imports : List Import)
    (ls : List String) (start : Nat)
    (h : ∀ kk, kk < ls.length → start ≤ kk → dupAliasUsedAt imports (ls.getD kk "") = false) :
    parseTestFunctions imports ls start = collectTestFunctions imports ls start ∧
    ∀ kk d, (hk : kk < ls.length) → start ≤ kk →
      resolveLine imports (ls.getD kk "") = .accept d →
      mkTestFunction d kk ∈ parseTestFunctions imports ls start := by
  have hnoab : ∀ kk, (hk : kk < ls.length) → start ≤ kk →
      resolveLine imports ls[kk] ≠ .abort := by
    intro kk hk hs
    have hh := h kk hk hs
    rw [List.getD_eq_getElem ls "" hk] at hh
    exact resolveLine_ne_abort_of_not_dup imports _ hh
  have heq : parseTestFunctions imports ls start = collectTestFunctions imports ls start := by
    have := parseTestFunctionsAux_eq_append_collect imports ls (ls.length + 1) start []
      (by omega) hnoab
    simpa [parseTestFunctions, collectTestFunctions] using this
  refine ⟨heq, ?_⟩
  intro kk d hk hs hacc
  rw [List.getD_eq_getElem ls "" hk] at hacc
  rw [heq]
  exact mem_collectTestFunctionsAux imports ls (ls.length + 1) start kk d
    (by omega) hs hk hacc

/-- C10 witness: duplicate alias `x` is present but unreferenced; the
declaration resolving through the gocheck fallback is still returned. -/
theorem parseTestFunctions_no_dup_alias_keeps_declarations_witness :
    parseTestFunctions
        [⟨"gopkg.in/check.v1", none, 0⟩, ⟨"m1", some "x", 1⟩, ⟨"m2", some "x", 2⟩]
        ["func (s *A) TestA(c *check.C) \x7b"] 0 =
      collectTestFunctions
        [⟨"gopkg.in/check.v1", none, 0⟩, ⟨"m1", some "x", 1⟩, ⟨"m2", some "x", 2⟩]
        ["func (s *A) TestA(c *check.C) \x7b"] 0 ∧
    mkTestFunction ⟨some .gocheck, "A", "TestA", ⟨"gopkg.in/check.v1", "C"⟩, 31⟩ 0 ∈
      parseTestFunctions
        [⟨"gopkg.in/check.v1", none, 0⟩, ⟨"m1", some "x", 1⟩, ⟨"m2", some "x", 2⟩]
        ["func (s *A) TestA(c *check.C) \x7b"] 0 := by
  have h := parseTestFunctions_no_dup_alias_keeps_declarations
    [⟨"gopkg.in/check.v1", none, 0⟩, ⟨"m1", some "x", 1⟩, ⟨"m2", some "x", 2⟩]
    ["func (s *A) TestA(c *check.C) \x7b"] 0 (by decide)
  exact ⟨h.1, h.2 0 ⟨some .gocheck, "A", "TestA", ⟨"gopkg.in/check.v1", "C"⟩, 31⟩
    (by decide) (by decide) (by decide)⟩

/-- C4: a declaration whose qualifier resolves through the import table (the
alias is bound by exactly one entry) gets its `kind` from the module
identifier that entry binds, independent of the alias text. -/
theorem resolveLine_kind_follows_alias_binding (imports : List Import) (line : String)
    (m : SuiteMatch) (a : String) (imp : Import)
    (hm : execSuite line = some m) (ha : m.argMod = some a) (hne : a ≠ "")
    (hfil : imports.filter (fun x => x.importAlias == some a) = [imp]) :
    resolveLine imports line =
      .accept ⟨kindOfModuleName imp.moduleName, m.receiverType, m.functionName,
        ⟨imp.moduleName, m.argTypeName⟩, m.matchLen⟩ := by
  simp only [resolveLine, hm, ha, hne, if_false, hfil]
  simp

/-- C4 witness: the claim's swap — alias `check` bound to the quicktest
module yields kind `quicktest`; alias `qtsuite` bound to the gocheck module
yields kind `gocheck`. -/
theorem resolveLine_kind_follows_alias_binding_witness :
    resolveLine [⟨"github.com/frankban/quicktest", some "check", 0⟩]
        "func (s *A) TestA(c *check.C) \x7b" =
      .accept ⟨some .quicktest, "A", "TestA", ⟨"github.com/frankban/quicktest", "C"⟩, 31⟩ ∧
    resolveLine [⟨"gopkg.in/check.v1", some "qtsuite", 0⟩]
        "func (s *B) TestB(c *qtsuite.C) \x7b" =
      .accept ⟨some .gocheck, "B", "TestB", ⟨"gopkg.in/check.v1", "C"⟩, 33⟩ := by
  constructor
  · rw [resolveLine_kind_follows_alias_binding
      [⟨"github.com/frankban/quicktest", some "check", 0⟩]
      "func (s *A) TestA(c *check.C) \x7b" ⟨"A", "TestA", some "check", "C", 31⟩ "check"
      ⟨"github.com/frankban/quicktest", some "check", 0⟩
      (by decide) (by decide) (by decide) (by decide)]
    decide
  · rw [resolveLine_kind_follows_alias_binding
      [⟨"gopkg.in/check.v1", some "qtsuite", 0⟩]
      "func (s *B) TestB(c *qtsuite.C) \x7b" ⟨"B", "TestB", some "qtsuite", "C", 33⟩ "qtsuite"
      ⟨"gopkg.in/check.v1", some "qtsuite", 0⟩
      (by decide) (by decide) (by decide) (by decide)]
    decide

/-- C5 counterexample: the gocheck module is present in the import table but
only under the alias `foo` (not unaliased), and the declaration's qualifier
`check` matches no alias; the claim says it must be skipped, yet the parser
accepts it through the fallback. -/
theorem parseTestFunctions_fallback_aliased_module_counterexample :
    parseTestFunctions [⟨"gopkg.in/check.v1", some "foo", 0⟩]
        ["func (s *S) TestX(c *check.C) \x7b"] 0 =
      [{ kind := some .gocheck, receiverType := some "S", functionName := "TestX",
         argType := some ⟨"gopkg.in/check.v1", "C"⟩, range := (0, 0, 0, 31),
         lineNumber := 0 }] := by
  decide

/-- C5 (amended): a declaration whose qualifier matches no import alias is
accepted via the fallback exactly when the qualifier is one of the two
well-known default package short names and the corresponding module
identifier occurs in the import table (aliased or not); any other
qualifier, or an absent module identifier, makes the declaration skip (the
parse is not aborted). -/
theorem resolveLine_fallback_requires_module_present (imports : List Import) (line : String)
    (m : SuiteMatch) (a : String)
    (hm : execSuite line = some m) (ha : m.argMod = some a) (hne : a ≠ "")
    (hfil : imports.filter (fun x => x.importAlias == some a) = []) :
    resolveLine imports line =
      (if a = _GOCHECK_PACKAGE_NAME then
        (if imports.any (fun x => x.moduleName == _GOCHECK_MODULE_NAME) then
          .accept ⟨some .gocheck, m.receiverType, m.functionName,
            ⟨_GOCHECK_MODULE_NAME, m.argTypeName⟩, m.matchLen⟩
        else .skip)
      else if a = _QUICKTEST_PACKAGE_NAME then
        (if imports.any (fun x => x.moduleName == _QUICKTEST_MODULE_NAME) then
          .accept ⟨some .quicktest, m.receiverType, m.functionName,
            ⟨_QUICKTEST_MODULE_NAME, m.argTypeName⟩, m.matchLen⟩
        else .skip)
      else .skip) := by
  have hg : kindOfModuleName _GOCHECK_MODULE_NAME = some .gocheck := by decide
  have hq : kindOfModuleName _QUICKTEST_MODULE_NAME = some .quicktest := by decide
  simp only [resolveLine, hm, ha, hne, if_false, hfil]
  by_cases hgc : a = _GOCHECK_PACKAGE_NAME
  · by_cases hmem : (imports.any fun x => x.moduleName == _GOCHECK_MODULE_NAME) = true
    · simp [hgc, hmem, hg]
    · simp [hgc, hmem]
  · have hpkg : ¬ (_QUICKTEST_PACKAGE_NAME = _GOCHECK_PACKAGE_NAME) := by decide
    by_cases hqt : a = _QUICKTEST_PACKAGE_NAME
    · by_cases hmem : (imports.any fun x => x.moduleName == _QUICKTEST_MODULE_NAME) = true
      · simp [hgc, hqt, hmem, hq, hpkg]
      · simp [hgc, hqt, hmem, hpkg]
    · simp [hgc, hqt]

/-- C5 amended-claim witness: the counterexample input goes through the
fallback because the gocheck module identifier is present, albeit aliased. -/
theorem resolveLine_fallback_requires_module_present_witness :
    resolveLine [⟨"gopkg.in/check.v1", some "foo", 0⟩] "func (s *S) TestX(c *check.C) \x7b" =
      .accept ⟨some .gocheck, "S", "TestX", ⟨"gopkg.in/check.v1", "C"⟩, 31⟩ := by
  rw [resolveLine_fallback_requires_module_present [⟨"gopkg.in/check.v1", some "foo", 0⟩]
    "func (s *S) TestX(c *check.C) \x7b" ⟨"S", "TestX", some "check", "C", 31⟩ "check"
    (by decide) (by decide) (by decide) (by decide)]
  decide

theorem parsePackageNameAux_eq_none_of_all_none (ls : List String) :
    ∀ fuel n, ls.length - n < fuel →
    (∀ kk, n ≤ kk → kk < ls.length → execPackage (ls.getD kk "") = none) →
    parsePackageNameAux ls fuel n = none := by
  intro fuel
  induction fuel with
  | zero =>
    intro n hfuel _
    omega
  | succ fuel ih =>
    intro n hfuel h
    simp only [parsePackageNameAux]
    by_cases hn : n < ls.length
    · rw [dif_pos hn]
      have hnone := h n (Nat.le_refl n) hn
      rw [List.getD_eq_getElem ls "" hn] at hnone
      rw [hnone]
      exact ih (n + 1) (by omega) fun kk hk1 hk2 => h kk (by omega) hk2
    · rw [dif_neg hn]

theorem parsePackageNameAux_spec (ls : List String) :
    ∀ fuel n pi, parsePackageNameAux ls fuel n = some pi →
    n ≤ pi.lineNumber ∧ pi.lineNumber < ls.length ∧
    execPackage (ls.getD pi.lineNumber "") = some pi.name ∧
    ∀ mm, n ≤ mm → mm < pi.lineNumber → execPackage (ls.getD mm "") = none := by
  intro fuel
  induction fuel with
  | zero =>
    intro n pi h
    exact absurd h (by simp [parsePackageNameAux])
  | succ fuel ih =>
    intro n pi h
    simp only [parsePackageNameAux] at h
    by_cases hn : n < ls.length
    · rw [dif_pos hn] at h
      cases he : execPackage ls[n] with
      | some name =>
        simp only [he, Option.some.injEq] at h
        subst h
        refine ⟨Nat.le_refl n, hn, ?_, ?_⟩
        · rw [List.getD_eq_getElem ls "" hn]
          exact he
        · intro mm h1 h2
          dsimp only at h2
          omega
      | none =>
        simp only [he] at h
        obtain ⟨h1, h2, h3, h4⟩ := ih (n + 1) pi h
        refine ⟨by omega, h2, h3, ?_⟩
        intro mm hm1 hm2
        rcases Nat.eq_or_lt_of_le hm1 with heq | hlt
        · subst heq
          rw [List.getD_eq_getElem ls "" hn]
          exact he
        · exact h4 mm hlt hm2
    · rw [dif_neg hn] at h
      exact absurd h (by simp)

/-- C7: when `parse` succeeds, the `packageInfo` is the first line matching
the package-statement regex (every earlier line does not match), and both
imports and test declarations are parsed starting at the line immediately
after it. -/
theorem parse_uses_first_package (ls : List String) (pi : PackageInfo)
    (h : parsePackageName ls = some pi) :
    pi.lineNumber < ls.length ∧
    execPackage (ls.getD pi.lineNumber "") = some pi.name ∧
    (∀ mm, mm < pi.lineNumber → execPackage (ls.getD mm "") = none) ∧
    parse ls = some ⟨pi, parseImports ls (1 + pi.lineNumber),
      parseTestFunctions (parseImports ls (1 + pi.lineNumber)) ls (1 + pi.lineNumber)⟩ := by
  obtain ⟨h1, h2, h3, h4⟩ := parsePackageNameAux_spec ls (ls.length + 1) 0 pi h
  refine ⟨h2, h3, fun mm hmm => h4 mm (Nat.zero_le mm) hmm, ?_⟩
  simp only [parse, h]

/-- C7 witness: the package statement on line 1 wins over a spurious earlier
line, and imports are taken from line 2 on. -/
theorem parse_uses_first_package_witness :
    parse ["import \"first\"", "package p", "import \"second\""] =
      some ⟨⟨"p", 1⟩,
        parseImports ["import \"first\"", "package p", "import \"second\""] 2,
        parseTestFunctions
          (parseImports ["import \"first\"", "package p", "import \"second\""] 2)
          ["import \"first\"", "package p", "import \"second\""] 2⟩ :=
  (parse_uses_first_package ["import \"first\"", "package p", "import \"second\""]
    ⟨"p", 1⟩ (by decide)).2.2.2

/-- C6: for content with no package statement (no line matches the
package-statement regex, which includes the empty text), `parse` returns
`none`, and file discovery on that content leaves any catalog unchanged for
every URI and adapter. -/
theorem parse_none_and_no_discovery_without_package (content : String)
    (h : ∀ kk, kk < (getLines content).length →
      execPackage ((getLines content).getD kk "") = none) :
    parse (getLines content) = none ∧
    ∀ (k : SupportedTestFunctionKinds) (rel : String → String) (uri : GoUri)
      (catalog : Catalog), _discoverTestsInFile k rel uri content catalog = catalog := by
  have hpn : parsePackageName (getLines content) = none :=
    parsePackageNameAux_eq_none_of_all_none (getLines content)
      ((getLines content).length + 1) 0 (by omega) fun kk h1 h2 => h kk h2
  constructor
  · simp [parse, hpn]
  · intro k rel uri catalog
    simp only [_discoverTestsInFile, hpn, ite_self]

/-- C6 witness: the empty text has no package statement; discovery leaves a
nonempty catalog untouched even for an accepted URI. -/
theorem parse_none_and_no_discovery_without_package_witness :
    parse (getLines "") = none ∧
    _discoverTestsInFile .gocheck (fun _ => "") ⟨"file", "/ws/pkg/a_test.go"⟩ ""
      [⟨"p", "p", []⟩] = [⟨"p", "p", []⟩] :=
  ⟨(parse_none_and_no_discovery_without_package "" (by decide)).1,
    (parse_none_and_no_discovery_without_package "" (by decide)).2 .gocheck
      (fun _ => "") ⟨"file", "/ws/pkg/a_test.go"⟩ [⟨"p", "p", []⟩]⟩

/-- C8: a URI whose path does not end in `_test.go`, or has a `testdata`
path segment, or whose filename starts with a dot or an underscore, makes
discovery return with the catalog unchanged, whatever the content. -/
theorem discover_skips_filtered_uris (k : SupportedTestFunctionKinds)
    (rel : String → String) (uri : GoUri) (content : String) (catalog : Catalog)
    (h : strEndsWith uri.path "_test.go" = false ∨
      (splitOnChar '/' uri.path).contains "testdata" = true ∨
      strStartsWith (pathBasename uri.path) "." = true ∨
      strStartsWith (pathBasename uri.path) "_" = true) :
    _discoverTestsInFile k rel uri content catalog = catalog := by
  unfold _discoverTestsInFile
  rcases h with h | h | h | h
  · simp [h]
  · split
    · rfl
    · simp [h]
  · split
    · rfl
    · split
      · rfl
      · simp [h]
  · split
    · rfl
    · split
      · rfl
      · simp [h]

/-- C8 witness: a file under a `testdata` directory is never scanned, even
with content that would otherwise produce catalog nodes. -/
theorem discover_skips_filtered_uris_witness :
    _discoverTestsInFile .gocheck (fun _ => "") ⟨"file", "/ws/testdata/a_test.go"⟩
      "package p\nimport \"gopkg.in/check.v1\"\nfunc (s *Suite) TestX(c *check.C) \x7b\x7d"
      [] = [] :=
  discover_skips_filtered_uris .gocheck (fun _ => "") ⟨"file", "/ws/testdata/a_test.go"⟩
    "package p\nimport \"gopkg.in/check.v1\"\nfunc (s *Suite) TestX(c *check.C) \x7b\x7d"
    [] (Or.inr (Or.inl (by decide)))

/-- C2: on normal completion of the run-path process, exit code 0 marks the
entry passed and every catalog child passed; a nonzero exit code marks the
entry failed with the captured stdout and stderr as the failure detail and
every child skipped. -/
theorem run_completion_outcomes (r : ProcessResult) (testId : String)
    (children : List String) :
    (r.code = some 0 → runOutcome (.completed r) testId children =
      (testId, TestOutcome.passed) :: children.map fun c => (c, TestOutcome.passed)) ∧
    (∀ z : Int, r.code = some z → z ≠ 0 → runOutcome (.completed r) testId children =
      (testId, TestOutcome.failed (r.stdout ++ "\r\n" ++ r.stderr)) ::
        children.map fun c => (c, TestOutcome.skipped)) := by
  constructor
  · intro h
    simp [runOutcome, h]
  · intro z hz hne
    have hne0 : ¬ r.code = some 0 := by
      rw [hz]
      simp [hne]
    simp [runOutcome, hne0]

/-- C2 witness: a passing and a failing completion on a two-child suite. -/
theorem run_completion_outcomes_witness :
    runOutcome (.completed ⟨some 0, "out", "err"⟩) "s" ["f1", "f2"] =
      [("s", .passed), ("f1", .passed), ("f2", .passed)] ∧
    runOutcome (.completed ⟨some 1, "out", "err"⟩) "s" ["f1", "f2"] =
      [("s", .failed "out\r\nerr"), ("f1", .skipped), ("f2", .skipped)] := by
  constructor
  · have h := (run_completion_outcomes ⟨some 0, "out", "err"⟩ "s" ["f1", "f2"]).1 rfl
    simpa using h
  · have h := (run_completion_outcomes ⟨some 1, "out", "err"⟩ "s" ["f1", "f2"]).2 1 rfl
      (by decide)
    simpa using h

/-- C3: the debug-session outcome follows the strict precedence (1) recorded
adapter error means failed; else (2) recorded exit code, zero passed and
nonzero failed; else (3) a captured stdout line exactly `PASS` means passed,
else one exactly `FAIL` means failed; otherwise the entry is skipped.
Children are marked passed with a pass and skipped with a fail, and a
termination with no claimed tracker is skipped. -/
theorem debug_termination_outcomes (t : GoTestDebugAdapterTracker) (testId : String)
    (children : List String) :
    (t.error.isSome = true → debugOutcome (some t) testId children =
      (testId, TestOutcome.failed (String.intercalate "\r\n"
          [String.intercalate "\r\n" t.stdout, String.intercalate "\r\n" t.stderr,
            String.intercalate "\r\n" t.others])) ::
        children.map fun c => (c, TestOutcome.skipped)) ∧
    (t.error = none → t.exitCode = some 0 → debugOutcome (some t) testId children =
      (testId, TestOutcome.passed) :: children.map fun c => (c, TestOutcome.passed)) ∧
    (∀ z : Int, t.error = none → t.exitCode = some z → z ≠ 0 →
      debugOutcome (some t) testId children =
      (testId, TestOutcome.failed (String.intercalate "\r\n"
          [String.intercalate "\r\n" t.stdout, String.intercalate "\r\n" t.stderr,
            String.intercalate "\r\n" t.others])) ::
        children.map fun c => (c, TestOutcome.skipped)) ∧
    (t.error = none → t.exitCode = none →
      hasMarkerLine "PASS" (String.intercalate "\r\n" t.stdout) = true →
      debugOutcome (some t) testId children =
      (testId, TestOutcome.passed) :: children.map fun c => (c, TestOutcome.passed)) ∧
    (t.error = none → t.exitCode = none →
      hasMarkerLine "PASS" (String.intercalate "\r\n" t.stdout) = false →
      hasMarkerLine "FAIL" (String.intercalate "\r\n" t.stdout) = true →
      debugOutcome (some t) testId children =
      (testId, TestOutcome.failed (String.intercalate "\r\n"
          [String.intercalate "\r\n" t.stdout, String.intercalate "\r\n" t.stderr,
            String.intercalate "\r\n" t.others])) ::
        children.map fun c => (c, TestOutcome.skipped)) ∧
    (t.error = none → t.exitCode = none →
      hasMarkerLine "PASS" (String.intercalate "\r\n" t.stdout) = false →
      hasMarkerLine "FAIL" (String.intercalate "\r\n" t.stdout) = false →
      debugOutcome (some t) testId children = [(testId, TestOutcome.skipped)]) ∧
    debugOutcome none testId children = [(testId, TestOutcome.skipped)] := by
  refine ⟨?_, ?_, ?_, ?_, ?_, ?_, rfl⟩
  · intro herr
    simp [debugOutcome, herr]
  · intro herr hcode
    simp [debugOutcome, herr, hcode]
  · intro z herr hcode hne
    simp [debugOutcome, herr, hcode, hne]
  · intro herr hcode hpass
    simp [debugOutcome, herr, hcode, hpass]
  · intro herr hcode hpass hfail
    simp [debugOutcome, herr, hcode, hpass, hfail]
  · intro herr hcode hpass hfail
    simp [debugOutcome, herr, hcode, hpass, hfail]

/-- C3 witness: an adapter error wins over a `PASS` line, and with no error
and no exit code the `PASS` sentinel decides. -/
theorem debug_termination_outcomes_witness :
    debugOutcome (some ⟨["PASS"], ["e"], [], none, some "boom"⟩) "s" ["f1"] =
      [("s", .failed "PASS\r\ne\r\n"), ("f1", .skipped)] ∧
    debugOutcome (some ⟨["ok", "PASS"], [], [], none, none⟩) "s" ["f1"] =
      [("s", .passed), ("f1", .passed)] := by
  constructor
  · have h := (debug_termination_outcomes ⟨["PASS"], ["e"], [], none, some "boom"⟩
      "s" ["f1"]).1 rfl
    simpa using h
  · have h := ((debug_termination_outcomes ⟨["ok", "PASS"], [], [], none, none⟩
      "s" ["f1"]).2.2.2.1) rfl rfl (by decide)
    simpa using h

/-- C9: a run request whose built queue is empty is rejected up front (error
reported, the run ended, nothing executed), and a debug request with more
than one queue entry is rejected outright before any execution. -/
theorem startTestRun_rejects (isDebug : Bool) (includeItems : List TItem)
    (exclude : List String) :
    (gatherQueue exclude includeItems = [] →
      _startTestRun isDebug includeItems exclude = ⟨some "No tests to run", [], true⟩) ∧
    (isDebug = true → 1 < (gatherQueue exclude includeItems).length →
      _startTestRun isDebug includeItems exclude =
        ⟨some "The extension does not support debugging multiple tests", [], true⟩) := by
  constructor
  · intro h
    simp [_startTestRun, h]
  · intro hdbg hlen
    have hne : ¬ (gatherQueue exclude includeItems).length = 0 := by omega
    simp [_startTestRun, hdbg, hlen, hne]

/-- C9 witness: an empty selection and a two-entry debug selection. -/
theorem startTestRun_rejects_witness :
    _startTestRun false [] [] = ⟨some "No tests to run", [], true⟩ ∧
    _startTestRun true
        [.node "a" (some (.suite "A")) [], .node "b" (some (.suite "B")) []] [] =
      ⟨some "The extension does not support debugging multiple tests", [], true⟩ := by
  constructor
  · exact (startTestRun_rejects false [] []).1 (by simp [gatherQueue])
  · exact (startTestRun_rejects true
      [.node "a" (some (.suite "A")) [], .node "b" (some (.suite "B")) []] []).2 rfl
      (by simp [gatherQueue])

end GoTestSuite
